import Mathlib

/-!
Verification development for the PyMUI wrapper sources.

The definitions below are a shallow embedding of the Cython wrapper code:

- `src/src/pymui/pymui.pyx` (namespace `Pyx` for methods that also exist
  in the other wrapper variant);
- the wrapper variant with validation checks contained in
  `src/unnamed/part_001` (namespace `Enhanced`, plus the `Textbox` class
  which only exists there).

Machine integers are embedded as `Int`/`Nat` with explicit reductions
where conversion matters (for example C `int` to `unsigned char`).
Calls into the microui C library (which is only declared, not defined,
in the sources) are embedded as explicit function parameters, so a
theorem that holds for every such parameter shows the wrapper behaviour
does not depend on, and does not reach, the external call.
-/

namespace PyMUI

/-- Python exception values raised by the wrapper code.  The constructor
`cUndefined` stands for C level undefined behaviour (for example memcpy
with a negative size converted to size_t), which is not a Python error
at all. -/
inductive PyErr where
  | valueError (msg : String)
  | indexError (msg : String)
  | memoryError (msg : String)
  | runtimeError (msg : String)
  | cUndefined
deriving DecidableEq

/-- Integer 2D vector (mu_Vec2). -/
structure MuVec2 where
  x : Int
  y : Int
deriving DecidableEq

/-- Axis-aligned rectangle (mu_Rect). -/
structure MuRect where
  x : Int
  y : Int
  w : Int
  h : Int
deriving DecidableEq

/-- RGBA color with unsigned 8-bit fields (mu_Color from microui.h). -/
structure MuColor where
  r : Nat
  g : Nat
  b : Nat
  a : Nat
deriving DecidableEq

/-- C conversion of a signed int value to an unsigned char field:
reduction modulo 256 (always in [0, 255], also for negative input). -/
def toByte (v : Int) : Nat := (v % 256).toNat

/-- Embedding of Color.__cinit__ from src/src/pymui/pymui.pyx: each int
argument is stored into an unsigned char field of mu_Color. -/
def Color.cinit (r g b a : Int) : MuColor :=
  { r := toByte r, g := toByte g, b := toByte b, a := toByte a }

/-- Color.__cinit__ with the alpha argument omitted: the Python signature
defaults a to 255. -/
def Color.cinitDefault (r g b : Int) : MuColor := Color.cinit r g b 255

/-- Embedding of the module level clamp from src/src/pymui/pymui.pyx,
instantiated at the int member of the fused numeric type:
clamp(x, a, b) = min(b, max(a, x)). -/
def clamp (x a b : Int) : Int := min b (max a x)

/-- Number of entries of the style color table (MU_COLOR_MAX, the last
member of the color index enum in the microui declarations). -/
def MU_COLOR_MAX : Nat := 14

/-- Embedding of the mu_Style struct: font is an opaque handle (omitted),
the color table is a total map on the MU_COLOR_MAX valid indices, matching
the C array mu_Color colors[MU_COLOR_MAX]. -/
structure MuStyle where
  size : MuVec2
  padding : Int
  spacing : Int
  indent : Int
  title_height : Int
  scrollbar_size : Int
  thumb_size : Int
  colors : Fin MU_COLOR_MAX → MuColor

/-- Embedding of Style.get_color from src/src/pymui/pymui.pyx: returns
the stored color when 0 <= index < MU_COLOR_MAX, otherwise raises
IndexError. -/
def Style.get_color (st : MuStyle) (index : Int) : Except PyErr MuColor :=
  if h : 0 ≤ index ∧ index < (MU_COLOR_MAX : Int) then
    .ok (st.colors ⟨index.toNat, by simp [MU_COLOR_MAX] at h ⊢; omega⟩)
  else
    .error (.indexError "Color index out of range")

/-- Embedding of Style.set_color from src/src/pymui/pymui.pyx: replaces
the stored color when 0 <= index < MU_COLOR_MAX, otherwise raises
IndexError.  The first component of the result is the style after the
call (mutation semantics), the second the raised error if any. -/
def Style.set_color (st : MuStyle) (index : Int) (color : MuColor) :
    MuStyle × Except PyErr Unit :=
  if h : 0 ≤ index ∧ index < (MU_COLOR_MAX : Int) then
    ({ st with
        colors :=
          Function.update st.colors
            ⟨index.toNat, by simp [MU_COLOR_MAX] at h ⊢; omega⟩ color },
      .ok ())
  else
    (st, .error (.indexError "Color index out of range"))

/-- C8: the module level clamp(x, a, b) equals min(b, max(a, x)); when
a <= b the result lies in [a, b]; clamp is idempotent; when a > b the
result is b regardless of x. -/
theorem clamp_spec (x a b : Int) :
    clamp x a b = min b (max a x)
    ∧ (a ≤ b → a ≤ clamp x a b ∧ clamp x a b ≤ b)
    ∧ clamp (clamp x a b) a b = clamp x a b
    ∧ (b < a → clamp x a b = b) := by
  refine ⟨rfl, ?_, ?_, ?_⟩ <;> simp [clamp] <;> omega

/-- Witness for clamp_spec at concrete inputs, discharging the a <= b
hypothesis at (7, 1, 5) and the b < a hypothesis at (9, 4, 2). -/
theorem clamp_spec_witness :
    ((1 : Int) ≤ clamp 7 1 5 ∧ clamp 7 1 5 ≤ 5) ∧ clamp 9 4 2 = 2 :=
  ⟨(clamp_spec 7 1 5).2.1 (by decide), (clamp_spec 9 4 2).2.2.2 (by decide)⟩

/-- C9: Color.__cinit__ stores each component reduced modulo 256 into an
unsigned 8-bit field; Color(256, 0, 0).r reads back as 0, a component of
-1 reads back as 255, and omitting the alpha argument stores alpha 255. -/
theorem color_cinit_spec (r g b a : Int) :
    (Color.cinit r g b a).r = (r % 256).toNat
    ∧ (Color.cinit r g b a).g = (g % 256).toNat
    ∧ (Color.cinit r g b a).b = (b % 256).toNat
    ∧ (Color.cinit r g b a).a = (a % 256).toNat
    ∧ (Color.cinit 256 0 0 255).r = 0
    ∧ (Color.cinit (-1) 0 0 255).r = 255
    ∧ Color.cinitDefault r g b = Color.cinit r g b 255
    ∧ (Color.cinitDefault r g b).a = 255 :=
  ⟨rfl, rfl, rfl, rfl, by decide, by decide, rfl, rfl⟩

/-- C3: Style.get_color and Style.set_color raise IndexError for every
index outside [0, MU_COLOR_MAX), the failing set_color leaves the whole
style (hence every color entry) unchanged; for every index inside the
range get_color returns the stored color and set_color replaces exactly
that entry without raising. -/
theorem style_color_spec (st : MuStyle) (index : Int) (color : MuColor) :
    (¬ (0 ≤ index ∧ index < (MU_COLOR_MAX : Int)) →
      Style.get_color st index
          = .error (.indexError "Color index out of range")
      ∧ Style.set_color st index color
          = (st, .error (.indexError "Color index out of range")))
    ∧ (∀ h : 0 ≤ index ∧ index < (MU_COLOR_MAX : Int),
      Style.get_color st index
          = .ok (st.colors ⟨index.toNat, by simp [MU_COLOR_MAX] at h ⊢; omega⟩)
      ∧ (Style.set_color st index color).2 = .ok ()
      ∧ (Style.set_color st index color).1.colors
          ⟨index.toNat, by simp [MU_COLOR_MAX] at h ⊢; omega⟩ = color
      ∧ (∀ j : Fin MU_COLOR_MAX, (j : Nat) ≠ index.toNat →
          (Style.set_color st index color).1.colors j = st.colors j)) := by
  constructor
  · intro h
    rw [Style.get_color, Style.set_color, dif_neg h, dif_neg h]
    exact ⟨rfl, rfl⟩
  · intro h
    rw [Style.get_color, Style.set_color, dif_pos h, dif_pos h]
    refine ⟨rfl, rfl, Function.update_same _ _ _, ?_⟩
    intro j hj
    exact Function.update_noteq (by simpa [Fin.ext_iff] using hj) _ _

/-- A concrete style value with an all-zero color table, used to witness
the style color theorems. -/
def styleZero : MuStyle :=
  { size := ⟨0, 0⟩, padding := 0, spacing := 0, indent := 0,
    title_height := 0, scrollbar_size := 0, thumb_size := 0,
    colors := fun _ => ⟨0, 0, 0, 0⟩ }

/-- Witness for style_color_spec: index 20 is rejected with IndexError and
leaves the style unchanged; index 3 reads back the stored color, and
setting entry 3 changes exactly that entry. -/
theorem style_color_spec_witness :
    (Style.get_color styleZero 20
        = .error (.indexError "Color index out of range")
      ∧ Style.set_color styleZero 20 ⟨1, 2, 3, 4⟩
        = (styleZero, .error (.indexError "Color index out of range")))
    ∧ (Style.get_color styleZero 3 = .ok (styleZero.colors ⟨3, by decide⟩)
      ∧ (Style.set_color styleZero 3 ⟨1, 2, 3, 4⟩).2 = .ok ()
      ∧ (Style.set_color styleZero 3 ⟨1, 2, 3, 4⟩).1.colors ⟨3, by decide⟩
          = ⟨1, 2, 3, 4⟩
      ∧ (Style.set_color styleZero 3 ⟨1, 2, 3, 4⟩).1.colors ⟨5, by decide⟩
          = styleZero.colors ⟨5, by decide⟩) := by
  have h1 := (style_color_spec styleZero 20 ⟨1, 2, 3, 4⟩).1 (by decide)
  have h2 := (style_color_spec styleZero 3 ⟨1, 2, 3, 4⟩).2 ⟨by decide, by decide⟩
  exact ⟨⟨h1.1, h1.2⟩, ⟨h2.1, h2.2.1, h2.2.2.1, h2.2.2.2 ⟨5, by decide⟩ (by decide)⟩⟩

/-- Replacement character U+FFFD emitted by the Python replace error
handler. -/
def replChar : Char := Char.ofNat 0xFFFD

/-- Whether a byte is a plain UTF-8 continuation byte (0x80..0xBF). -/
def isCont (b : Nat) : Bool := decide (0x80 ≤ b ∧ b ≤ 0xBF)

/-- Lower bound of the admissible first continuation byte after the given
lead byte (0xE0 and 0xF0 exclude overlong encodings). -/
def contLow (lead : Nat) : Nat :=
  if lead = 0xE0 then 0xA0 else if lead = 0xF0 then 0x90 else 0x80

/-- Upper bound of the admissible first continuation byte after the given
lead byte (0xED excludes surrogates, 0xF4 values above U+10FFFF). -/
def contHigh (lead : Nat) : Nat :=
  if lead = 0xED then 0x9F else if lead = 0xF4 then 0x8F else 0xBF

/-- Whether a byte is admissible as the first continuation byte after the
given lead byte. -/
def isContFor (lead c : Nat) : Bool := decide (contLow lead ≤ c ∧ c ≤ contHigh lead)

/-- UTF-8 encoding of one unicode scalar value, as produced per character
by the Python utf-8 codec on encoding. -/
def utf8EncodeChar (c : Char) : List Nat :=
  let v := c.toNat
  if v < 0x80 then [v]
  else if v < 0x800 then [0xC0 + v / 64, 0x80 + v % 64]
  else if v < 0x10000 then
    [0xE0 + v / 4096, 0x80 + v / 64 % 64, 0x80 + v % 64]
  else
    [0xF0 + v / 262144, 0x80 + v / 4096 % 64, 0x80 + v / 64 % 64, 0x80 + v % 64]

/-- UTF-8 encoding of a string given as its list of unicode scalar
values: the embedding of the Python str.encode with the utf-8 codec. -/
def utf8Encode : List Char → List Nat
  | [] => []
  | c :: cs => utf8EncodeChar c ++ utf8Encode cs

/-- Embedding of the Python bytes.decode with the utf-8 codec and the
replace error handler: a total function replacing each maximal ill-formed
subpart with one U+FFFD, following the CPython decoder. -/
def decodeUtf8Replace : List Nat → List Char
  | [] => []
  | b :: rest =>
    if b < 0x80 then Char.ofNat b :: decodeUtf8Replace rest
    else if b < 0xC2 then replChar :: decodeUtf8Replace rest
    else if b < 0xE0 then
      match rest with
      | c1 :: rest1 =>
        if isCont c1 then
          Char.ofNat ((b - 0xC0) * 64 + (c1 - 0x80)) :: decodeUtf8Replace rest1
        else replChar :: decodeUtf8Replace (c1 :: rest1)
      | [] => [replChar]
    else if b < 0xF0 then
      match rest with
      | c1 :: rest1 =>
        if isContFor b c1 then
          match rest1 with
          | c2 :: rest2 =>
            if isCont c2 then
              Char.ofNat ((b - 0xE0) * 4096 + (c1 - 0x80) * 64 + (c2 - 0x80))
                :: decodeUtf8Replace rest2
            else replChar :: decodeUtf8Replace (c2 :: rest2)
          | [] => [replChar]
        else replChar :: decodeUtf8Replace (c1 :: rest1)
      | [] => [replChar]
    else if b < 0xF5 then
      match rest with
      | c1 :: rest1 =>
        if isContFor b c1 then
          match rest1 with
          | c2 :: rest2 =>
            if isCont c2 then
              match rest2 with
              | c3 :: rest3 =>
                if isCont c3 then
                  Char.ofNat ((b - 0xF0) * 262144 + (c1 - 0x80) * 4096
                      + (c2 - 0x80) * 64 + (c3 - 0x80))
                    :: decodeUtf8Replace rest3
                else replChar :: decodeUtf8Replace (c3 :: rest3)
              | [] => [replChar]
            else replChar :: decodeUtf8Replace (c2 :: rest2)
          | [] => [replChar]
        else replChar :: decodeUtf8Replace (c1 :: rest1)
      | [] => [replChar]
    else replChar :: decodeUtf8Replace rest

/-- Taking exactly the length of a takeWhile run returns that run. -/
theorem take_length_takeWhile (p : Nat → Bool) (l : List Nat) :
    l.take (l.takeWhile p).length = l.takeWhile p := by
  induction l with
  | nil => rfl
  | cons a l ih =>
    by_cases h : p a
    · simp [List.takeWhile_cons, h, ih]
    · simp [List.takeWhile_cons, h]

/-- On a list without NUL bytes, taking while nonzero is the identity. -/
theorem takeWhile_ne_zero_of_not_mem (l : List Nat) (h : (0 : Nat) ∉ l) :
    l.takeWhile (fun b => b != 0) = l := by
  induction l with
  | nil => rfl
  | cons a l ih =>
    simp only [List.mem_cons, not_or] at h
    have ha : (a != 0) = true := by
      simpa [bne_iff_ne] using (Ne.symm h.1)
    simp [List.takeWhile_cons, ha, ih h.2]

/-- Embedding of the Textbox extension type from the wrapper variant in
src/unnamed/part_001: a caller-owned byte buffer of fixed capacity, the
flag bufferIsNull models the C pointer being NULL after deallocation. -/
structure Textbox where
  buffer : List Nat
  buffer_size : Nat
  bufferIsNull : Bool
  current_text : List Char
deriving DecidableEq

/-- Embedding of Textbox.__cinit__: validates the requested capacity
(at least 2 bytes, at most 64KB), then allocates the buffer and NUL
terminates its first byte.  The parameter mallocOk models whether the C
allocation succeeds, uninit the uninitialized memory malloc returned. -/
def Textbox.cinit (buffer_size : Int) (mallocOk : Bool) (uninit : List Nat) :
    Except PyErr Textbox :=
  if buffer_size < 2 then .error (.valueError "Buffer size must be at least 2 bytes")
  else if buffer_size > 65536 then .error (.valueError "Buffer size too large (max 64KB)")
  else if mallocOk = false then .error (.memoryError "Failed to allocate textbox buffer")
  else
    .ok { buffer := 0 :: uninit.take (buffer_size.toNat - 1),
          buffer_size := buffer_size.toNat,
          bufferIsNull := false,
          current_text := [] }

/-- Embedding of the Textbox.text setter from src/unnamed/part_001: the
string is UTF-8 encoded, at most buffer_size - 1 bytes are copied into
the buffer by memcpy, a NUL terminator is written after them, and
current_text is set to the decoded copied bytes when truncation
happened, to the original string otherwise. -/
def Textbox.setText (tb : Textbox) (value : List Char) : Except PyErr Textbox :=
  let b_value := utf8Encode value
  let encoded_len := b_value.length
  if tb.buffer_size < 1 then .error (.valueError "Buffer too small")
  else
    let copy_len := min encoded_len (tb.buffer_size - 1)
    let buf1 :=
      if 0 < copy_len ∧ 0 < encoded_len ∧ tb.bufferIsNull = false then
        b_value.take copy_len ++ tb.buffer.drop copy_len
      else tb.buffer
    let buf2 :=
      if tb.bufferIsNull = false ∧ copy_len < tb.buffer_size then
        buf1.set copy_len 0
      else buf1
    let text :=
      if copy_len < encoded_len then decodeUtf8Replace (buf2.take copy_len)
      else value
    .ok { tb with buffer := buf2, current_text := text }

/-- Setting the element right after an initial segment rewrites only the
trailing singleton. -/
theorem set_append_singleton (A : List Nat) (d v k : Nat) (hk : A.length = k) :
    (A ++ [d]).set k v = A ++ [v] := by
  subst hk
  induction A with
  | nil => rfl
  | cons a A ih => simp [ih]

/-- Decidable form of: the byte list is the UTF-8 encoding of some
character-boundary initial segment of the string s (every encoding of an
initial segment arises from a take of at most the full length). -/
def isEncodedPrefixOf (bs : List Nat) (s : List Char) : Bool :=
  (List.range (s.length + 1)).any fun k => bs == utf8Encode (s.take k)

/-- The decidable form agrees with the quantified statement. -/
theorem isEncodedPrefixOf_iff (bs : List Nat) (s : List Char) :
    isEncodedPrefixOf bs s = true ↔ ∃ k, bs = utf8Encode (s.take k) := by
  constructor
  · intro h
    simp only [isEncodedPrefixOf, List.any_eq_true, List.mem_range, beq_iff_eq] at h
    obtain ⟨k, _, hk⟩ := h
    exact ⟨k, hk⟩
  · rintro ⟨k, hk⟩
    simp only [isEncodedPrefixOf, List.any_eq_true, List.mem_range, beq_iff_eq]
    by_cases hks : k ≤ s.length
    · exact ⟨k, by omega, hk⟩
    · refine ⟨s.length, by omega, ?_⟩
      rw [List.take_length]
      rwa [List.take_of_length_le (by omega)] at hk

/-- Evaluation of the Textbox.text setter on an oversized string: the
buffer afterwards holds the first buffer_size - 1 bytes of the UTF-8
encoding followed by a NUL terminator, and current_text is the
replace-decoded copied slice. -/
theorem setText_eval (buf : List Nat) (bsz : Nat) (ct : List Char) (s : List Char)
    (hsize : 2 ≤ bsz) (hlen : buf.length = bsz)
    (hover : bsz - 1 < (utf8Encode s).length) :
    Textbox.setText ⟨buf, bsz, false, ct⟩ s
      = .ok ⟨(utf8Encode s).take (bsz - 1) ++ [0], bsz, false,
             decodeUtf8Replace ((utf8Encode s).take (bsz - 1))⟩ := by
  have hcl : min (utf8Encode s).length (bsz - 1) = bsz - 1 :=
    Nat.min_eq_right (Nat.le_of_lt hover)
  have hd : ∃ d, buf.drop (bsz - 1) = [d] := by
    apply List.length_eq_one.mp
    rw [List.length_drop, hlen]; omega
  obtain ⟨d, hd⟩ := hd
  have htl : ((utf8Encode s).take (bsz - 1)).length = bsz - 1 := by
    rw [List.length_take]; omega
  simp only [Textbox.setText]
  rw [if_neg (by omega : ¬ bsz < 1), hcl, hd]
  rw [if_pos (⟨by omega, by omega, trivial⟩ :
    0 < bsz - 1 ∧ 0 < (utf8Encode s).length ∧ True)]
  rw [if_pos (⟨trivial, by omega⟩ : True ∧ bsz - 1 < bsz)]
  rw [set_append_singleton _ d 0 _ htl]
  rw [if_pos hover, List.take_left' htl]

/-- C1 (amended): assigning an oversized string s to Textbox.text stores
the raw byte initial segment of length buffer_size - 1 of the UTF-8
encoding of s (which may split a multi-byte sequence) followed by a NUL
terminator, the stored segment is at most buffer_size - 1 bytes, the
stored current_text is the replace-decoding of that segment, and
assigning the same string a second time leaves the textbox exactly as
after the first assignment (idempotent). -/
theorem textbox_set_text_spec (tb : Textbox) (s : List Char)
    (hnull : tb.bufferIsNull = false)
    (hsize : 2 ≤ tb.buffer_size)
    (hlen : tb.buffer.length = tb.buffer_size)
    (hover : tb.buffer_size - 1 < (utf8Encode s).length) :
    ∃ tb2, Textbox.setText tb s = .ok tb2
      ∧ tb2.buffer = (utf8Encode s).take (tb.buffer_size - 1) ++ [0]
      ∧ tb2.buffer_size = tb.buffer_size
      ∧ ((utf8Encode s).take (tb.buffer_size - 1)).length ≤ tb.buffer_size - 1
      ∧ tb2.current_text = decodeUtf8Replace ((utf8Encode s).take (tb.buffer_size - 1))
      ∧ Textbox.setText tb2 s = .ok tb2 := by
  obtain ⟨buf, bsz, bn, ct⟩ := tb
  dsimp only at hnull hsize hlen hover ⊢
  subst hnull
  refine ⟨_, setText_eval buf bsz ct s hsize hlen hover, rfl, rfl, ?_, rfl, ?_⟩
  · rw [List.length_take]; omega
  · have hlen2 : ((utf8Encode s).take (bsz - 1) ++ [0]).length = bsz := by
      rw [List.length_append, List.length_take]
      simp only [List.length_cons, List.length_nil]
      omega
    exact setText_eval _ bsz _ s hsize hlen2 hover

/-- A concrete textbox with capacity 4 used to witness the setter
theorem. -/
def tbFour : Textbox := ⟨[0, 0, 0, 0], 4, false, []⟩

/-- Witness for textbox_set_text_spec: capacity 4 and the five byte
string hello, discharging every hypothesis at concrete values. -/
theorem textbox_set_text_spec_witness :
    ∃ tb2, Textbox.setText tbFour ['h', 'e', 'l', 'l', 'o'] = .ok tb2
      ∧ tb2.buffer
          = (utf8Encode ['h', 'e', 'l', 'l', 'o']).take (tbFour.buffer_size - 1) ++ [0]
      ∧ tb2.buffer_size = tbFour.buffer_size
      ∧ ((utf8Encode ['h', 'e', 'l', 'l', 'o']).take (tbFour.buffer_size - 1)).length
          ≤ tbFour.buffer_size - 1
      ∧ tb2.current_text
          = decodeUtf8Replace
              ((utf8Encode ['h', 'e', 'l', 'l', 'o']).take (tbFour.buffer_size - 1))
      ∧ Textbox.setText tb2 ['h', 'e', 'l', 'l', 'o'] = .ok tb2 :=
  textbox_set_text_spec tbFour ['h', 'e', 'l', 'l', 'o']
    (by decide) (by decide) (by decide) (by decide)

/-- A concrete textbox with capacity 2 on which byte truncation splits a
two byte UTF-8 sequence. -/
def tbTwo : Textbox := ⟨[0, 0], 2, false, []⟩

/-- C1 counterexample: for buffer capacity 2 and the one character string
U+00E9 (two UTF-8 bytes, hence oversized for capacity 2), the setter
stores the single byte 0xC3, which splits the two byte sequence: the
stored C string is not the UTF-8 encoding of any initial segment of the
input, so the stored value is not a valid UTF-8 prefix of s. -/
theorem textbox_set_text_counterexample :
    tbTwo.buffer_size - 1 < (utf8Encode [Char.ofNat 233]).length
    ∧ Textbox.setText tbTwo [Char.ofNat 233]
        = .ok ⟨[195, 0], 2, false, [replChar]⟩
    ∧ ([195, 0].takeWhile (fun b => b != 0)) = [195]
    ∧ isEncodedPrefixOf [195] [Char.ofNat 233] = false :=
  ⟨by decide, rfl, by decide, by decide⟩

/-- Whether a wrapper call raised a ValueError (of any message). -/
def raisedValueError {α : Type} : Except PyErr α → Bool
  | .error (.valueError _) => true
  | _ => false

namespace Pyx

/-- Embedding of Context.begin_window from src/src/pymui/pymui.pyx: the
title is UTF-8 encoded and passed to mu_begin_window_ex with no
validation of any kind.  The external C call is the parameter mu, taking
the context state, the encoded title, the rect and the option mask. -/
def begin_window {σ : Type} (mu : σ → List Nat → MuRect → Int → σ × Int)
    (st : σ) (title : List Char) (rect : MuRect) (opt : Int) :
    Except PyErr (σ × Int) :=
  .ok (mu st (utf8Encode title) rect opt)

/-- Embedding of Context.textbox_ex from src/src/pymui/pymui.pyx: a
buffer of bufsz bytes is allocated (mallocOk models allocation success),
min(len(encoded), bufsz - 1) bytes are copied with no validation of
bufsz, the buffer is NUL terminated, mu_textbox_ex (the parameter mu,
returning the context state, the result mask and the buffer contents it
leaves behind) is called, and the buffer is read back with strlen and
decoded with the replace error handler.  A negative copy length reaches
memcpy with a negative size converted to size_t: C undefined
behaviour. -/
def textbox_ex {σ : Type} (mu : σ → List Nat → Int → Int → σ × Int × List Nat)
    (mallocOk : Bool) (st : σ) (buf : List Char) (bufsz : Int) (opt : Int) :
    Except PyErr (σ × Int × List Char) :=
  if mallocOk = false then .error (.memoryError "Failed to allocate textbox buffer")
  else
    let b_buf := utf8Encode buf
    let copy_len : Int := min (b_buf.length : Int) (bufsz - 1)
    if copy_len < 0 then .error .cUndefined
    else
      let c_buf := b_buf.take copy_len.toNat ++ [0]
      let res := mu st c_buf bufsz opt
      .ok (res.1, res.2.1,
        decodeUtf8Replace (res.2.2.takeWhile (fun b => b != 0)))

end Pyx

namespace Enhanced

/-- Embedding of Context.begin_window from the wrapper variant in
src/unnamed/part_001: rejects an uninitialized context pointer with
RuntimeError, an empty title and negative rect dimensions with
ValueError, all before the external mu_begin_window_ex call (the
parameter mu). -/
def begin_window {σ : Type} (mu : σ → List Nat → MuRect → Int → σ × Int)
    (ptrIsNull : Bool) (st : σ) (title : List Char) (rect : MuRect) (opt : Int) :
    Except PyErr (σ × Int) :=
  if ptrIsNull then .error (.runtimeError "Context not initialized")
  else if title.length = 0 then .error (.valueError "Window title cannot be empty")
  else if rect.w < 0 ∨ rect.h < 0 then
    .error (.valueError "Window dimensions cannot be negative")
  else .ok (mu st (utf8Encode title) rect opt)

/-- Embedding of Context.textbox_ex from the wrapper variant in
src/unnamed/part_001: validates bufsz (positive, at most 1MB) before the
allocation, allocates, validates again that at least 2 bytes are
available, copies min(len(encoded), bufsz - 1) bytes plus a NUL
terminator, calls mu_textbox_ex (the parameter mu) and decodes the
buffer it leaves behind with the replace error handler. -/
def textbox_ex {σ : Type} (mu : σ → List Nat → Int → Int → σ × Int × List Nat)
    (mallocOk : Bool) (st : σ) (buf : List Char) (bufsz : Int) (opt : Int) :
    Except PyErr (σ × Int × List Char) :=
  if bufsz ≤ 0 then .error (.valueError "Buffer size must be positive")
  else if bufsz > 1048576 then .error (.valueError "Buffer size too large (max 1MB)")
  else if mallocOk = false then .error (.memoryError "Failed to allocate textbox buffer")
  else
    let b_buf := utf8Encode buf
    if bufsz < 2 then .error (.valueError "Buffer too small (minimum 2 bytes)")
    else
      let copy_len := min b_buf.length (bufsz.toNat - 1)
      let c_buf := b_buf.take copy_len ++ [0]
      let res := mu st c_buf bufsz opt
      .ok (res.1, res.2.1,
        decodeUtf8Replace (res.2.2.takeWhile (fun b => b != 0)))

end Enhanced

/-- Embedding of Textbox.update from src/unnamed/part_001: rejects a None
context with ValueError and a NULL buffer with RuntimeError, calls
mu_textbox_ex (the parameter mu) on the owned buffer, stores the
replace-decoded buffer contents into current_text and returns the result
mask together with the updated textbox. -/
def Textbox.update {σ : Type} (mu : σ → List Nat → Int → Int → σ × Int × List Nat)
    (ctxIsNone : Bool) (st : σ) (tb : Textbox) (opt : Int) :
    Except PyErr (σ × Textbox × Int) :=
  if ctxIsNone then .error (.valueError "Context cannot be None")
  else if tb.bufferIsNull then .error (.runtimeError "Textbox buffer is corrupted")
  else
    let res := mu st tb.buffer (tb.buffer_size : Int) opt
    let newText := decodeUtf8Replace (res.2.2.takeWhile (fun b => b != 0))
    .ok (res.1, { tb with buffer := res.2.2, current_text := newText }, res.2.1)

/-- C2 (amended): the begin_window of the validating wrapper variant
rejects an empty title or negative rect dimensions with ValueError
before the external call, the rejected call is independent of the
external mu_begin_window_ex function (so no stack or command buffer
mutation can have happened), and a call with a non-empty title and
non-negative dimensions raises no error. -/
theorem begin_window_validation_spec {σ : Type}
    (mu mu2 : σ → List Nat → MuRect → Int → σ × Int)
    (st : σ) (title : List Char) (rect : MuRect) (opt : Int) :
    (title = [] →
      Enhanced.begin_window mu false st title rect opt
        = .error (.valueError "Window title cannot be empty"))
    ∧ (title ≠ [] → rect.w < 0 ∨ rect.h < 0 →
      Enhanced.begin_window mu false st title rect opt
        = .error (.valueError "Window dimensions cannot be negative"))
    ∧ ((title = [] ∨ rect.w < 0 ∨ rect.h < 0) →
      Enhanced.begin_window mu false st title rect opt
        = Enhanced.begin_window mu2 false st title rect opt)
    ∧ (title ≠ [] → 0 ≤ rect.w → 0 ≤ rect.h →
      Enhanced.begin_window mu false st title rect opt
        = .ok (mu st (utf8Encode title) rect opt)) := by
  have hbw : ∀ m : σ → List Nat → MuRect → Int → σ × Int,
      Enhanced.begin_window m false st title rect opt
        = if title.length = 0 then .error (.valueError "Window title cannot be empty")
          else if rect.w < 0 ∨ rect.h < 0 then
            .error (.valueError "Window dimensions cannot be negative")
          else .ok (m st (utf8Encode title) rect opt) := by
    intro m
    simp [Enhanced.begin_window]
  have hlen0 : ∀ h : title ≠ [], ¬ title.length = 0 := fun h hc =>
    h (List.length_eq_zero.mp hc)
  refine ⟨?_, ?_, ?_, ?_⟩
  · intro h
    rw [hbw, if_pos (by simp [h])]
  · intro h1 h2
    rw [hbw, if_neg (hlen0 h1), if_pos h2]
  · intro h
    rcases h with h | h
    · rw [hbw, hbw, if_pos (by simp [h]), if_pos (by simp [h])]
    · by_cases h1 : title.length = 0
      · rw [hbw, hbw, if_pos h1, if_pos h1]
      · rw [hbw, hbw, if_neg h1, if_neg h1, if_pos h, if_pos h]
  · intro h1 h2 h3
    rw [hbw, if_neg (hlen0 h1), if_neg (not_or.mpr ⟨not_lt.mpr h2, not_lt.mpr h3⟩)]

/-- Witness for begin_window_validation_spec: the empty title and a
negative width are each rejected with the corresponding ValueError, and
a well-formed call returns the external result. -/
theorem begin_window_validation_spec_witness :
    Enhanced.begin_window (fun (s : Unit) _ _ _ => (s, 7)) false () [] ⟨0, 0, 10, 10⟩ 0
        = .error (.valueError "Window title cannot be empty")
    ∧ Enhanced.begin_window (fun (s : Unit) _ _ _ => (s, 7)) false () ['W'] ⟨0, 0, -5, 10⟩ 0
        = .error (.valueError "Window dimensions cannot be negative")
    ∧ Enhanced.begin_window (fun (s : Unit) _ _ _ => (s, 7)) false () ['W'] ⟨0, 0, 10, 10⟩ 0
        = .ok ((), 7) :=
  ⟨(begin_window_validation_spec (fun (s : Unit) _ _ _ => (s, 7))
      (fun (s : Unit) _ _ _ => (s, 7)) () [] ⟨0, 0, 10, 10⟩ 0).1 rfl,
   (begin_window_validation_spec (fun (s : Unit) _ _ _ => (s, 7))
      (fun (s : Unit) _ _ _ => (s, 7)) () ['W'] ⟨0, 0, -5, 10⟩ 0).2.1
      (by decide) (Or.inl (by decide)),
   (begin_window_validation_spec (fun (s : Unit) _ _ _ => (s, 7))
      (fun (s : Unit) _ _ _ => (s, 7)) () ['W'] ⟨0, 0, 10, 10⟩ 0).2.2.2
      (by decide) (by decide) (by decide)⟩

/-- C2 counterexample: the begin_window of src/src/pymui/pymui.pyx
performs no validation at all: called with an empty title and a negative
width it raises nothing and simply forwards to the external call. -/
theorem begin_window_counterexample :
    Pyx.begin_window (fun (s : Unit) _ _ _ => (s, 1)) () [] ⟨0, 0, -5, 10⟩ 0
        = .ok ((), 1)
    ∧ raisedValueError
        (Pyx.begin_window (fun (s : Unit) _ _ _ => (s, 1)) () [] ⟨0, 0, -5, 10⟩ 0)
        = false :=
  ⟨rfl, rfl⟩

/-- C4 (amended): the textbox_ex of the validating wrapper variant
rejects a non-positive buffer size with ValueError, and the rejected
call is independent of both allocation success and the external
mu_textbox_ex function: it is rejected before any buffer is allocated or
written and leaves no state behind. -/
theorem textbox_bufsz_validation_spec {σ : Type}
    (mu mu2 : σ → List Nat → Int → Int → σ × Int × List Nat)
    (mallocOk mallocOk2 : Bool) (st : σ) (buf : List Char) (bufsz : Int) (opt : Int)
    (h : bufsz ≤ 0) :
    Enhanced.textbox_ex mu mallocOk st buf bufsz opt
        = .error (.valueError "Buffer size must be positive")
    ∧ Enhanced.textbox_ex mu mallocOk st buf bufsz opt
        = Enhanced.textbox_ex mu2 mallocOk2 st buf bufsz opt := by
  have e : ∀ (m : σ → List Nat → Int → Int → σ × Int × List Nat) (mk : Bool),
      Enhanced.textbox_ex m mk st buf bufsz opt
        = .error (.valueError "Buffer size must be positive") := by
    intro m mk
    unfold Enhanced.textbox_ex
    rw [if_pos h]
  exact ⟨e mu mallocOk, (e mu mallocOk).trans (e mu2 mallocOk2).symm⟩

/-- Witness for textbox_bufsz_validation_spec at buffer size -3 with two
different external functions and allocation outcomes. -/
theorem textbox_bufsz_validation_spec_witness :
    Enhanced.textbox_ex (fun (s : Unit) b _ _ => (s, 0, b)) true () [] (-3) 0
        = .error (.valueError "Buffer size must be positive")
    ∧ Enhanced.textbox_ex (fun (s : Unit) b _ _ => (s, 0, b)) true () [] (-3) 0
        = Enhanced.textbox_ex (fun (s : Unit) b _ _ => (s, 1, b)) false () [] (-3) 0 :=
  textbox_bufsz_validation_spec (fun (s : Unit) b _ _ => (s, 0, b))
    (fun (s : Unit) b _ _ => (s, 1, b)) true false () [] (-3) 0 (by decide)

/-- C4 counterexample: the textbox_ex of src/src/pymui/pymui.pyx never
checks bufsz: called with buffer size 0 it computes the copy length
min(0, -1) = -1 and reaches memcpy with a negative size (C undefined
behaviour), raising no ValueError. -/
theorem textbox_bufsz_counterexample :
    Pyx.textbox_ex (fun (s : Unit) b _ _ => (s, 0, b)) true () [] 0 0
        = .error .cUndefined
    ∧ raisedValueError
        (Pyx.textbox_ex (fun (s : Unit) b _ _ => (s, 0, b)) true () [] 0 0)
        = false :=
  ⟨rfl, rfl⟩

/-- C6: both textbox read-backs decode the buffer left behind by the
external call with the total replacement decoder, so whatever bytes the
buffer holds (valid UTF-8 or not) the call returns an ok pair and never
an encoding error. -/
theorem textbox_readback_decode_spec {σ : Type}
    (mu : σ → List Nat → Int → Int → σ × Int × List Nat)
    (st : σ) (buf : List Char) (bufsz : Int) (opt : Int) (tb : Textbox) :
    (1 ≤ bufsz →
      Pyx.textbox_ex mu true st buf bufsz opt
        = .ok ((mu st ((utf8Encode buf).take
              (min ((utf8Encode buf).length : Int) (bufsz - 1)).toNat ++ [0]) bufsz opt).1,
            (mu st ((utf8Encode buf).take
              (min ((utf8Encode buf).length : Int) (bufsz - 1)).toNat ++ [0]) bufsz opt).2.1,
            decodeUtf8Replace
              ((mu st ((utf8Encode buf).take
                (min ((utf8Encode buf).length : Int) (bufsz - 1)).toNat ++ [0]) bufsz opt).2.2.takeWhile
                (fun b => b != 0))))
    ∧ (tb.bufferIsNull = false →
      Textbox.update mu false st tb opt
        = .ok ((mu st tb.buffer (tb.buffer_size : Int) opt).1,
            { tb with
                buffer := (mu st tb.buffer (tb.buffer_size : Int) opt).2.2,
                current_text := decodeUtf8Replace
                  ((mu st tb.buffer (tb.buffer_size : Int) opt).2.2.takeWhile
                    (fun b => b != 0)) },
            (mu st tb.buffer (tb.buffer_size : Int) opt).2.1)) := by
  constructor
  · intro h
    unfold Pyx.textbox_ex
    rw [if_neg (by simp), if_neg (by omega :
      ¬ min ((utf8Encode buf).length : Int) (bufsz - 1) < 0)]
  · intro h
    unfold Textbox.update
    rw [if_neg (by simp), if_neg (by simp [h])]

/-- An external call model that leaves an invalid UTF-8 byte sequence in
the textbox buffer, used to witness the read-back theorem. -/
def muBad : Unit → List Nat → Int → Int → Unit × Int × List Nat :=
  fun s _ _ _ => (s, 5, [0xFF, 0xC3, 0x28, 0])

/-- Witness for textbox_readback_decode_spec with an external call that
leaves invalid UTF-8 in the buffer: both read-backs still return ok, the
undecodable bytes replaced by U+FFFD. -/
theorem textbox_readback_decode_spec_witness :
    (1 : Int) ≤ 3
    ∧ Pyx.textbox_ex muBad true () ['a'] 3 0
        = .ok ((), 5,
            decodeUtf8Replace ([0xFF, 0xC3, 0x28, 0].takeWhile (fun b => b != 0)))
    ∧ Textbox.update muBad false () tbFour 0
        = .ok ((),
            { tbFour with
                buffer := [0xFF, 0xC3, 0x28, 0],
                current_text := decodeUtf8Replace
                  ([0xFF, 0xC3, 0x28, 0].takeWhile (fun b => b != 0)) },
            5)
    ∧ decodeUtf8Replace ([0xFF, 0xC3, 0x28, 0].takeWhile (fun b => b != 0))
        = [replChar, replChar, Char.ofNat 40] :=
  ⟨by decide,
   (textbox_readback_decode_spec muBad () ['a'] 3 0 tbFour).1 (by decide),
   (textbox_readback_decode_spec muBad () ['a'] 3 0 tbFour).2 rfl,
   by decide⟩

/-- Embedding of the TextCommand wrapper from src/src/pymui/pymui.pyx:
it views a mu_TextCommand record whose string payload is strData (none
models a NULL str pointer; the list holds all bytes stored for the
command, so its length is the explicit stored length). -/
structure TextCommand where
  pos : MuVec2
  color : MuColor
  strData : Option (List Nat)
deriving DecidableEq

/-- Embedding of the TextCommand.text property from src/src/pymui/pymui.pyx:
a NULL pointer yields the empty string, otherwise the length is computed
with strlen (bytes before the first NUL), an empty result short-circuits,
and the strlen-sized slice is decoded with the replace error handler. -/
def TextCommand.text (c : TextCommand) : List Char :=
  match c.strData with
  | none => []
  | some bs =>
    let len := (bs.takeWhile (fun b => b != 0)).length
    if len = 0 then []
    else decodeUtf8Replace (bs.take len)

/-- C5 (amended): TextCommand.text returns the replace-decoding of the
stored bytes only up to the first NUL byte (computed with strlen), not of
the whole stored payload; on a payload without NUL bytes the whole
payload is decoded, and a NULL pointer yields the empty string. -/
theorem text_command_strlen_spec (pos : MuVec2) (color : MuColor) (bs : List Nat) :
    TextCommand.text ⟨pos, color, some bs⟩
        = decodeUtf8Replace (bs.takeWhile (fun b => b != 0))
    ∧ TextCommand.text ⟨pos, color, none⟩ = []
    ∧ ((0 : Nat) ∉ bs →
        TextCommand.text ⟨pos, color, some bs⟩ = decodeUtf8Replace bs) := by
  have h1 : TextCommand.text ⟨pos, color, some bs⟩
      = decodeUtf8Replace (bs.takeWhile (fun b => b != 0)) := by
    unfold TextCommand.text
    dsimp only
    by_cases h : (bs.takeWhile (fun b => b != 0)).length = 0
    · rw [if_pos h]
      rw [List.length_eq_zero] at h
      rw [h]
      rfl
    · rw [if_neg h, take_length_takeWhile]
  refine ⟨h1, rfl, fun h0 => ?_⟩
  rw [h1, takeWhile_ne_zero_of_not_mem bs h0]

/-- Witness for text_command_strlen_spec: a NUL-free payload is decoded
in full. -/
theorem text_command_strlen_spec_witness :
    TextCommand.text ⟨⟨0, 0⟩, ⟨0, 0, 0, 0⟩, some [104, 105]⟩
        = decodeUtf8Replace [104, 105] :=
  (text_command_strlen_spec ⟨0, 0⟩ ⟨0, 0, 0, 0⟩ [104, 105]).2.2 (by decide)

/-- C5 counterexample: a text command whose stored payload is the three
bytes 97, 0, 98 is cut short at the embedded NUL: the property returns
only the one character a, not the full three character string the
explicit stored length would give. -/
theorem text_command_embedded_nul_counterexample :
    TextCommand.text ⟨⟨0, 0⟩, ⟨0, 0, 0, 0⟩, some [97, 0, 98]⟩ = [Char.ofNat 97]
    ∧ decodeUtf8Replace [97, 0, 98] = [Char.ofNat 97, Char.ofNat 0, Char.ofNat 98]
    ∧ [Char.ofNat 97] ≠ [Char.ofNat 97, Char.ofNat 0, Char.ofNat 98] := by decide

/-- The FNV-1a 32-bit multiplier. -/
def FNV_PRIME : Nat := 16777619

/-- The FNV-1a 32-bit offset basis, the hash seed used when the id stack
is empty. -/
def HASH_INITIAL : Nat := 2166136261

/-- One FNV-1a step on the 32-bit hash state: xor the byte in, multiply
by the prime, reduce modulo 2^32. -/
def fnvStep (h b : Nat) : Nat := ((h ^^^ b) * FNV_PRIME) % 4294967296

/-- FNV-1a over a byte list from a given seed. -/
def muHash (seed : Nat) (data : List Nat) : Nat := data.foldl fnvStep seed

/-- Modelled from the spec: mu_get_id of the microui C library is only
declared, not defined, under src/; the spec describes it as a stable
order-sensitive FNV-1a 32-bit hash of the caller bytes seeded with the
id on top of the id stack, or a fixed initial seed if the stack is
empty.  The list head is the stack top. -/
def get_id (idStack : List Nat) (data : List Nat) : Nat :=
  muHash (idStack.headD HASH_INITIAL) data

/-- One FNV-1a step stays below 2^32. -/
theorem fnvStep_lt (h b : Nat) : fnvStep h b < 4294967296 :=
  Nat.mod_lt _ (by norm_num)

/-- One FNV-1a step is injective in the hash state: the xor is a
bijection and the multiplier is coprime to 2^32. -/
theorem fnvStep_inj (b : Nat) (hb : b < 4294967296) (h1 h2 : Nat)
    (e1 : h1 < 4294967296) (e2 : h2 < 4294967296)
    (heq : fnvStep h1 b = fnvStep h2 b) : h1 = h2 := by
  have hpow : (4294967296 : Nat) = 2 ^ 32 := by norm_num
  have hco : Nat.gcd 4294967296 FNV_PRIME = 1 := by norm_num [FNV_PRIME]
  have hmul : (h1 ^^^ b) * FNV_PRIME ≡ (h2 ^^^ b) * FNV_PRIME [MOD 4294967296] := heq
  have hmod : h1 ^^^ b ≡ h2 ^^^ b [MOD 4294967296] :=
    Nat.ModEq.cancel_right_of_coprime hco hmul
  have hx1 : h1 ^^^ b < 4294967296 := by
    rw [hpow]
    exact Nat.xor_lt_two_pow (hpow ▸ e1) (hpow ▸ hb)
  have hx2 : h2 ^^^ b < 4294967296 := by
    rw [hpow]
    exact Nat.xor_lt_two_pow (hpow ▸ e2) (hpow ▸ hb)
  have hxeq : h1 ^^^ b = h2 ^^^ b := by
    have := hmod
    unfold Nat.ModEq at this
    rwa [Nat.mod_eq_of_lt hx1, Nat.mod_eq_of_lt hx2] at this
  have := congrArg (fun z => z ^^^ b) hxeq
  simpa [Nat.xor_assoc] using this

/-- FNV-1a over a byte list is injective in the seed. -/
theorem muHash_inj (data : List Nat) (hdata : ∀ b ∈ data, b < 4294967296)
    (s1 s2 : Nat) (h1 : s1 < 4294967296) (h2 : s2 < 4294967296)
    (heq : muHash s1 data = muHash s2 data) : s1 = s2 := by
  induction data generalizing s1 s2 with
  | nil => exact heq
  | cons b rest ih =>
    have hb : b < 4294967296 := hdata b (List.mem_cons_self b rest)
    apply fnvStep_inj b hb s1 s2 h1 h2
    exact ih (fun x hx => hdata x (List.mem_cons_of_mem _ hx))
      (fnvStep s1 b) (fnvStep s2 b) (fnvStep_lt s1 b) (fnvStep_lt s2 b) heq

/-- C7 (amended): get_id depends only on the seed on top of the id stack
and the bytes, so two calls with the same id-stack contents and the same
bytes agree; and changing the parent seed always changes the id, both
stated on the raw hash and on get_id with a pushed seed on top. -/
theorem get_id_spec (st1 st2 : List Nat) (data : List Nat)
    (hdata : ∀ b ∈ data, b < 4294967296) :
    (st1.headD HASH_INITIAL = st2.headD HASH_INITIAL →
      get_id st1 data = get_id st2 data)
    ∧ (∀ s1 s2 : Nat, s1 < 4294967296 → s2 < 4294967296 → s1 ≠ s2 →
      muHash s1 data ≠ muHash s2 data)
    ∧ (∀ (t1 t2 : Nat) (r1 r2 : List Nat),
      t1 < 4294967296 → t2 < 4294967296 → t1 ≠ t2 →
      get_id (t1 :: r1) data ≠ get_id (t2 :: r2) data) := by
  refine ⟨?_, ?_, ?_⟩
  · intro h
    unfold get_id
    rw [h]
  · intro s1 s2 hs1 hs2 hne he
    exact hne (muHash_inj data hdata s1 s2 hs1 hs2 he)
  · intro t1 t2 r1 r2 ht1 ht2 hne he
    exact hne (muHash_inj data hdata t1 t2 ht1 ht2 he)

/-- Witness for get_id_spec: equal stack tops give equal ids, distinct
seeds 1 and 2 give distinct hashes and distinct ids for the bytes of
hi. -/
theorem get_id_spec_witness :
    get_id [5, 9] [104, 105] = get_id [5] [104, 105]
    ∧ muHash 1 [104, 105] ≠ muHash 2 [104, 105]
    ∧ get_id [1] [104, 105] ≠ get_id [2, 7] [104, 105] :=
  ⟨(get_id_spec [5, 9] [5] [104, 105] (by decide)).1 rfl,
   (get_id_spec [5, 9] [5] [104, 105] (by decide)).2.1 1 2
     (by decide) (by decide) (by decide),
   (get_id_spec [5, 9] [5] [104, 105] (by decide)).2.2 1 2 [7] []
     (by decide) (by decide) (by decide)⟩

/-- C7 counterexample: changing the bytes does not always change the id:
the two distinct eight byte ASCII labels vmXuqzvn and prcxZS4u collide
under the default hash from the initial seed. -/
theorem get_id_collision_counterexample :
    get_id [] [118, 109, 88, 117, 113, 122, 118, 110]
        = get_id [] [112, 114, 99, 120, 90, 83, 52, 117]
    ∧ ([118, 109, 88, 117, 113, 122, 118, 110] : List Nat)
        ≠ [112, 114, 99, 120, 90, 83, 52, 117] := by decide

/-- Instrumented state of the microui context for the frame lifecycle:
mu_begin and mu_end (external C calls) are modeled as counting how often
each has been invoked. -/
structure MuState where
  begun : Nat
  ended : Nat
deriving DecidableEq

/-- Model of mu_begin: records one frame-begin call. -/
def mu_begin (s : MuState) : MuState := { s with begun := s.begun + 1 }

/-- Model of mu_end: records one frame-end call. -/
def mu_end (s : MuState) : MuState := { s with ended := s.ended + 1 }

/-- Embedding of Context.__enter__ from src/unnamed/part_001: calls
begin(), which invokes mu_begin, and returns self. -/
def ctxEnter (s : MuState) : MuState := mu_begin s

/-- Embedding of Context.__exit__ from src/unnamed/part_001: calls
end(), which invokes mu_end. -/
def ctxExit (s : MuState) : MuState := mu_end s

/-- The value Context.__exit__ returns: None. -/
def ctxExitReturn : Option Bool := none

/-- Embedding of the Python with-statement specialized to a Context:
run __enter__, then the body (which may finish with a value or raise),
then __exit__; a raised exception is suppressed only when __exit__
returns a truthy value, and the returned None is falsy. -/
def pyWith {ε α : Type} (body : MuState → MuState × Except ε α) (s : MuState) :
    MuState × Except ε (Option α) :=
  let s1 := ctxEnter s
  match body s1 with
  | (s2, .ok a) => (ctxExit s2, .ok (some a))
  | (s2, .error e) =>
      (ctxExit s2, if ctxExitReturn.getD false then .ok none else .error e)

/-- C10: entering the context manager calls begin exactly once, exiting
calls end exactly once on both the normal and the raising path, and
since __exit__ returns None a raised exception propagates unchanged. -/
theorem context_manager_spec {ε α : Type} (body : MuState → MuState × Except ε α)
    (s : MuState) :
    ((ctxEnter s).begun = s.begun + 1 ∧ (ctxEnter s).ended = s.ended)
    ∧ (∀ t : MuState, (ctxExit t).ended = t.ended + 1 ∧ (ctxExit t).begun = t.begun)
    ∧ (∀ s2 a, body (ctxEnter s) = (s2, .ok a) →
        pyWith body s = (ctxExit s2, .ok (some a)))
    ∧ (∀ s2 e, body (ctxEnter s) = (s2, .error e) →
        pyWith body s = (ctxExit s2, .error e))
    ∧ (∀ s2 r, body (ctxEnter s) = (s2, r) →
        (pyWith body s).1.ended = s2.ended + 1) := by
  refine ⟨⟨rfl, rfl⟩, fun t => ⟨rfl, rfl⟩, ?_, ?_, ?_⟩
  · intro s2 a h
    simp only [pyWith]
    rw [h]
  · intro s2 e h
    simp only [pyWith]
    rw [h]
    rfl
  · intro s2 r h
    simp only [pyWith]
    rw [h]
    cases r <;> rfl

/-- Witness for context_manager_spec: a body that finishes normally and a
body that raises both leave the counters at one begin and one end, and
the raised error propagates. -/
theorem context_manager_spec_witness :
    pyWith (fun t => (t, (Except.ok 3 : Except String Nat))) ⟨0, 0⟩
        = (⟨1, 1⟩, Except.ok (some 3))
    ∧ pyWith (fun t => (t, (Except.error "boom" : Except String Nat))) ⟨0, 0⟩
        = (⟨1, 1⟩, Except.error "boom") :=
  ⟨(context_manager_spec (fun t => (t, (Except.ok 3 : Except String Nat))) ⟨0, 0⟩).2.2.1
      (ctxEnter ⟨0, 0⟩) 3 rfl,
   (context_manager_spec (fun t => (t, (Except.error "boom" : Except String Nat))) ⟨0, 0⟩).2.2.2.1
      (ctxEnter ⟨0, 0⟩) "boom" rfl⟩

end PyMUI
